import Mathlib

/-!
Verification development for the gdrive provider (`cloudsync_gdrive.py`).

The provider keeps a live path cache `_ids : Dict[str, str]` (path → object id)
and a trashed cache `_trashed_ids`, and reconciles them against the remote
Drive API.  This file shallowly embeds the cache-manipulating core of the
source: paths are embedded as their component lists (`/a/b` becomes
`["a", "b"]`, the root `/` becomes `[]`), the two python dicts are embedded as
insertion-ordered association lists with the python update-in-place semantics,
and remote responses are supplied as explicit data.  Helpers inherited from
the cloudsync base `Provider` (`split`, `join`, `dirname`, `is_subpath`) are
not part of this repository; they are embedded by their documented semantics:
`is_subpath(folder, target)` returns the relative remainder of `target` under
`folder` (with case-insensitive comparison, since `case_sensitive = False`)
and a falsy value otherwise, `join`/`split` concatenate and split path
components.
-/

namespace GDrive

/-- A path, as the list of its `/`-separated components.  The root `/` is `[]`. -/
abbrev Path := List String

/-- Lowercasing of one component (python `str.lower`, embedded character-wise). -/
def lowerStr (s : String) : String := ⟨s.data.map Char.toLower⟩

/-- Component-wise lowercasing; the provider is case-insensitive
(`case_sensitive = False`), and `is_subpath` compares case-insensitively. -/
def lowerPath (p : Path) : Path := p.map lowerStr

/-- Boolean list-prefix test (used to embed the path-prefix check of
`Provider.is_subpath`). -/
def isPrefixL : List String → List String → Bool
  | [], _ => true
  | _ :: _, [] => false
  | a :: as, b :: bs => a == b && isPrefixL as bs

/-- `Provider.is_subpath(folder, target)`: if `target` lies under `folder`
(case-insensitively, root included), the relative remainder of `target`
(actual case preserved, `some []` for `target == folder`, mirroring the truthy
`"/"` the python helper returns); otherwise `none` (falsy). -/
def isSubpath (folder target : Path) : Option Path :=
  if isPrefixL (lowerPath folder) (lowerPath target) then some (target.drop folder.length)
  else none

/-- `Provider.join`: append a relative remainder (or a single leaf name) to a path. -/
def joinP (p rel : Path) : Path := p ++ rel

/-- Render a component-list path back to its `/`-separated string (the form the
python dict keys take); `[]` renders as the root `"/"`. -/
def renderPath (p : Path) : String := "/" ++ String.intercalate "/" p

/-- Split a character list on a separator (structural helper for `parsePath`). -/
def splitChars (sep : Char) : List Char → List (List Char)
  | [] => [[]]
  | c :: rest =>
    match splitChars sep rest with
    | g :: gs => if c == sep then [] :: g :: gs else (c :: g) :: gs
    | [] => if c == sep then [[], []] else [[c]]

/-- Parse a string into path components (used where the source hands a plain
string to a path helper). -/
def parsePath (s : String) : Path :=
  ((splitChars '/' s.data).map (fun cs => String.mk cs)).filter (fun c => c ≠ "")

/-- A python `dict` keyed by path, in insertion order. -/
abbrev Dict := List (Path × String)

/-- `d.get(k)` -/
def dget (d : Dict) (k : Path) : Option String :=
  (d.find? (fun kv => kv.1 = k)).map (fun kv => kv.2)

/-- `d[k] = v`: replaces the value in place when the key is present, else
appends, matching python dict insertion-order semantics. -/
def dset : Dict → Path → String → Dict
  | [], k, v => [(k, v)]
  | kv :: rest, k, v => if kv.1 = k then (k, v) :: rest else kv :: dset rest k v

/-- `d.pop(k, None)` / `del d[k]` for a present key: drop the entry. -/
def dpop (d : Dict) (k : Path) : Dict := d.filter (fun kv => kv.1 ≠ k)

/-- `d.pop(k)` with no default: a missing key raises `KeyError`. -/
def popNoDefault (d : Dict) (k : Path) : Except String Dict :=
  match dget d k with
  | some _ => .ok (dpop d k)
  | none => .error "KeyError"

/-- Object types (`cloudsync.DIRECTORY/FILE/NOTKNOWN`). -/
inductive OType where
  | FILE
  | DIRECTORY
  | NOTKNOWN
deriving DecidableEq, Repr

/-- `'application/vnd.google-apps.folder'` -/
def folderMimeType : String := "application/vnd.google-apps.folder"

/-- The provider's mutable cache state: `_ids`, `_trashed_ids` and the resolved
`__root_id` (the embedding takes the root id as already resolved; the lazy
`_root_id` property always yields this value). -/
structure PState where
  ids : Dict
  trashed : Dict
  rootId : String
deriving DecidableEq, Repr

/-- `_cached_id(path)`: the root path resolves to the root id, other paths hit
the live cache. -/
def cachedId (st : PState) (path : Path) : Option String :=
  if path = [] then some st.rootId else dget st.ids path

/-- `GDriveInfo` as far as the cache logic consumes it (`mtime` is an
externally parsed timestamp and is not modelled). -/
structure GInfo where
  otype : OType
  oid : String
  hash : Option String
  path : Option Path
  pids : List String
  name : String
  shared : Bool
  readonly : Bool
  size : Nat
deriving DecidableEq, Repr

/-- A raw `file` resource of the remote Drive, with the fields the source
reads. `sharedWithMe` backs the `sharedWithMe` query term, `shared` the
`shared` field. -/
structure RFile where
  id : String
  name : String
  parents : List String
  mimeType : String
  trashed : Bool
  shared : Bool
  sharedWithMe : Bool
  canEdit : Bool
  appProperties : List (String × String)
  md5 : Option String
  size : Nat
deriving DecidableEq, Repr

/-- The remote Drive contents, as the ground truth behind `files.get` /
`files.list`. -/
structure Remote where
  files : List RFile
deriving DecidableEq, Repr

/-- `appProperties.get('pid', None)` -/
def lookupProp (props : List (String × String)) (k : String) : Option String :=
  (props.find? (fun kv => kv.1 = k)).map (fun kv => kv.2)

/-- `_resolve_missing_parent(res)`: use the truthy `pid` app-property as the
sole parent, else fall back to the root id. -/
def resolveMissingParent (st : PState) (appProperties : List (String × String)) : List String :=
  match lookupProp appProperties "pid" with
  | some metaPid => if metaPid ≠ "" then [metaPid] else [st.rootId]
  | none => [st.rootId]

/-- `_prep_app_properties(parent_oid)`: record the parent id as a sidecar
property unless the parent is falsy or the root. -/
def prepAppProperties (st : PState) (parentOid : Option String) : List (String × String) :=
  match parentOid with
  | none => []
  | some pid => if pid = "" then [] else if pid = st.rootId then [] else [("pid", pid)]

/-- The `file` payload embedded in a change record (only its `mimeType` is
read). -/
structure ChangeFile where
  mimeType : String
deriving DecidableEq, Repr

/-- A raw change record of `changes.list` (`time` is parsed externally into a
float timestamp and is not modelled). -/
structure Change where
  fileId : String
  removed : Option Bool
  file : Option ChangeFile
deriving DecidableEq, Repr

/-- A normalized `Event` (the float `time` field is not modelled). -/
structure Event where
  otype : OType
  oid : String
  path : Option Path
  hash : Option String
  exists? : Option Bool
  newCursor : Option String
deriving DecidableEq, Repr

/-- `_convert_to_event(change, new_cursor)`: builds the event (tri-state
`exists`: `some false` exactly for `removed is True`, else `none`; `otype`
from the embedded file's mime type, else `NOTKNOWN`; `path` left unresolved
as `None`), then performs the per-record cache maintenance of the source:
collect every cached path of the record's id whose path differs from the
event path, plus — when the event path is truthy and the object is a
directory — every cached path under the event path, and pop the collected
paths. -/
def convertToEvent (st : PState) (change : Change) (newCursor : Option String) :
    Event × PState :=
  let oid := change.fileId
  let exists? : Option Bool := if change.removed = some true then some false else none
  let otype : OType :=
    match change.file with
    | some f => if f.mimeType = folderMimeType then .DIRECTORY else .FILE
    | none => .NOTKNOWN
  let ohash : Option String := none
  let path : Option Path := none
  let event : Event := ⟨otype, oid, path, ohash, exists?, newCursor⟩
  let remove := st.ids.foldl (fun acc kv =>
    let acc := if kv.2 = oid ∧ (match path with | some p => p ≠ kv.1 | none => True) then
        acc ++ [kv.1]
      else acc
    if (match path with
        | some p => otype = .DIRECTORY ∧ (isSubpath p kv.1).isSome
        | none => False) then
      acc ++ [kv.1]
    else acc) []
  let ids1 := remove.foldl (fun d r => dpop d r) st.ids
  let ids2 := match path with
    | some p => dset ids1 p oid
    | none => ids1
  (event, { st with ids := ids2 })

/-- The loop body of `_uncache` on the accumulated pair (live, trashed): a
path of the target id is moved into the trashed store and deleted from the
live store; any other path under the uncached path is popped from the live
store. -/
def uncacheStep (oid : String) (path : Path) (acc : Dict × Dict) (kv : Path × String) :
    Dict × Dict :=
  if kv.2 = oid then (dpop acc.1 kv.1, dset acc.2 kv.1 kv.2)
  else if (isSubpath path kv.1).isSome then (dpop acc.1 kv.1, acc.2)
  else acc

/-- `_uncache(path)`: a no-op when the path has no cached id; otherwise walk a
snapshot of the live cache applying `uncacheStep` for the resolved id. -/
def uncache (st : PState) (path : Path) : PState :=
  match cachedId st path with
  | none => st
  | some oid =>
    let res := st.ids.foldl (uncacheStep oid path) (st.ids, st.trashed)
    { st with ids := res.1, trashed := res.2 }

/-- `is_subpath` applied to a possibly-`None` folder argument (`None` is falsy,
so the helper reports no match). -/
def isSubpathOpt (folder : Option Path) (target : Path) : Option Path :=
  match folder with
  | some f => isSubpath f target
  | none => none

/-- `_clear_cache(*, oid=None, path=None)`: an empty scope wipes both stores.
Otherwise the source iterates `for coid, cpath in list(dict.items())` — note
the tuple order: `coid` is bound to the path key and `cpath` to the oid value
— compares the path key against the scope oid and asks whether the oid value
lies under the scope path, pops `self._ids` by the oid value with no default
(a `KeyError` when absent), and the second loop, over `_trashed_ids`, also
pops from `self._ids`.  The embedding reproduces this literally, rendering or
parsing where the source compares a path string with an oid string. -/
def clearCache (st : PState) (oid : Option String) (path : Option Path) :
    Except String (PState × Bool) :=
  if oid = none ∧ (path = none ∨ path = some []) then
    .ok ({ st with ids := [], trashed := [] }, true)
  else do
    let hit := fun (kv : Path × String) =>
      oid = some (renderPath kv.1) ∨ (isSubpathOpt path (parsePath kv.2)).isSome
    let ids1 ← st.ids.foldlM (fun d kv =>
      if hit kv then popNoDefault d (parsePath kv.2) else pure d) st.ids
    let ids2 ← st.trashed.foldlM (fun d kv =>
      if hit kv then popNoDefault d (parsePath kv.2) else pure d) ids1
    .ok ({ st with ids := ids2 }, true)

/-- The loop body of the `rename` cache rewrite: an entry whose path lies
under `old_path` is popped and re-inserted under `join(new_path, relative)`
with its id; other entries are untouched. -/
def renameStep (oldPath newPath : Path) (d : Dict) (kv : Path × String) : Dict :=
  match isSubpath oldPath kv.1 with
  | some rel => dset (dpop d kv.1) (joinP newPath rel) kv.2
  | none => d

/-- The cache-rewrite step of `rename` (run when `old_path` is known): walk a
snapshot of the live cache applying `renameStep`. -/
def renameSubtreeCache (ids : Dict) (oldPath newPath : Path) : Dict :=
  ids.foldl (renameStep oldPath newPath) ids

/-- The failure surfaced to the `_api` exception handlers: an `HttpError` with
its status and extracted reason, or one of the transport-level exception
classes. -/
inductive ApiFailure where
  | httpError (status : Nat) (reason : String)
  | sslError (message : String)
  | refreshError
  | timeoutError
  | httpLib2Error
  | connectionReset
deriving DecidableEq, Repr

/-- What `_api` raises for a failure. -/
inductive ApiOutcome where
  | fileDone
  | outOfSpace
  | fileExists
  | fileNotFound
  | tokenError
  | permissionError
  | temporaryError
  | disconnectedError
  | reraised
deriving DecidableEq, Repr

/-- `googleapiclient.http._should_retry_response`, embedded from the behavior
the source documents for it (retry on status ≥ 500, on 429, and on 403 with a
rate-limit reason in the payload). -/
def shouldRetryResponse (status : Nat) (reason : String) : Bool :=
  500 ≤ status ∨ status = 429 ∨
    (status = 403 ∧ (reason = "userRateLimitExceeded" ∨ reason = "rateLimitExceeded"))

/-- Boolean character-list prefix test (helper for the substring check below). -/
def isPrefixC : List Char → List Char → Bool
  | [], _ => true
  | _ :: _, [] => false
  | a :: as, b :: bs => a == b && isPrefixC as bs

/-- `needle in haystack` on python strings, embedded over character lists. -/
def hasSubstring (needle : List Char) : List Char → Bool
  | [] => isPrefixC needle []
  | c :: cs => isPrefixC needle (c :: cs) || hasSubstring needle cs

/-- The exception-translation cascade of `_api`, in source order, paired with
whether the handler forces a disconnect (`self.disconnect()`) before raising. -/
def translateApiError : ApiFailure → ApiOutcome × Bool
  | .sslError message =>
    if hasSubstring "WRONG_VERSION".toList message.toList then (.temporaryError, false)
    else (.reraised, false)
  | .refreshError => (.tokenError, true)
  | .httpError status reason =>
    if status = 416 then (.fileDone, false)
    else if status = 413 then (.outOfSpace, false)
    else if status = 409 then (.fileExists, false)
    else if status = 404 then (.fileNotFound, false)
    else if status = 403 ∧ reason = "storageQuotaExceeded" then (.outOfSpace, false)
    else if status = 401 then (.tokenError, true)
    else if status = 403 ∧ reason = "parentNotAFolder" then (.fileExists, false)
    else if status = 403 ∧ reason = "insufficientFilePermissions" then (.permissionError, false)
    else if (status = 403 ∧ (reason = "userRateLimitExceeded" ∨ reason = "rateLimitExceeded" ∨
        reason = "dailyLimitExceeded")) ∨ status = 429 then (.temporaryError, false)
    else if shouldRetryResponse status reason then (.temporaryError, false)
    else (.reraised, false)
  | .timeoutError => (.disconnectedError, true)
  | .httpLib2Error => (.disconnectedError, true)
  | .connectionReset => (.temporaryError, false)

/-- One page returned by `changes.list`. -/
structure ChangePage where
  changes : List Change
  newStartPageToken : Option String
  nextPageToken : Option String
deriving DecidableEq, Repr

/-- The per-page cursor commit of `events()`:
`if new_cursor and page_token and new_cursor != page_token: self.__cursor = new_cursor`
(python truthiness: a `None` or empty token is falsy). -/
def commitCursor (cursor pageToken : String) (newCursor : Option String) : String :=
  match newCursor with
  | some c => if c ≠ "" ∧ pageToken ≠ "" ∧ c ≠ pageToken then c else cursor
  | none => cursor

/-- The per-record conversion loop of one page of `events()`: convert each raw
change in order (threading the cache mutations of `_convert_to_event`) and
collect the yielded events in order. -/
def convertPage (st : PState) (changes : List Change) (newCursor : Option String) :
    List Event × PState :=
  match changes with
  | [] => ([], st)
  | ch :: rest =>
    let res := convertToEvent st ch newCursor
    let tl := convertPage res.2 rest newCursor
    (res.1 :: tl.1, tl.2)

/-- The generator loop of `events()`, driven by the successive `changes.list`
responses (given as the list of pages the api returns for the successive
tokens).  Each delivered event is paired with the externally visible
`__cursor` at the moment the caller pulls it; the loop commits the cursor
only after the whole page has been yielded, as the caller pulls onward.
Returns the trace, the final cursor, and the final cache state. -/
def runEvents (st : PState) (cursor : String) :
    Option String → List ChangePage → List (Event × String) × String × PState
  | none, _ => ([], cursor, st)
  | some _, [] => ([], cursor, st)
  | some tok, pg :: rest =>
    let conv := convertPage st pg.changes pg.newStartPageToken
    let cursor1 := commitCursor cursor tok pg.newStartPageToken
    let tl := runEvents conv.2 cursor1 pg.nextPageToken rest
    (conv.1.map (fun e => (e, cursor)) ++ tl.1, tl.2.1, tl.2.2)

/-- `events()` itself: the first page token is the current cursor. -/
def eventsRun (st : PState) (cursor : String) (pages : List ChangePage) :
    List (Event × String) × String × PState :=
  runEvents st cursor (some cursor) pages

/-- The `files.list` call of `info_path`: children of `parent_id` with the
exact name, widened with `sharedWithMe` items when the scope is the root. -/
def infoPathQuery (rm : Remote) (rootId parentId name : String) : List RFile :=
  if parentId = rootId then
    rm.files.filter (fun f => (f.sharedWithMe ∨ f.parents.contains parentId) ∧ f.name = name)
  else
    rm.files.filter (fun f => f.parents.contains parentId ∧ f.name = name)

/-- `_info_oid(oid)`: `files.get` by id; a missing id is not-found (the source
then refreshes the root id, which in this embedding always re-resolves to the
same value and falls through to `None`); a trashed record is treated as
not-found; missing parents of a shared item go through
`_resolve_missing_parent`.  Pure: it performs no cache mutation. -/
def infoOidPure (rm : Remote) (st : PState) (oid : String) : Option GInfo :=
  match rm.files.find? (fun f => f.id = oid) with
  | none => none
  | some f =>
    if f.trashed then none
    else
      let pids := if f.parents = [] ∧ f.shared then resolveMissingParent st f.appProperties
        else f.parents
      some { otype := if f.mimeType = folderMimeType then .DIRECTORY else .FILE,
             oid := oid, hash := f.md5, path := none, pids := pids, name := f.name,
             shared := f.shared, readonly := !f.canEdit, size := f.size }

/-- `_path_oid(oid, info=None, use_cache=True)`: scan the live then the
trashed cache for any path of the id; fall back to the root path for the root
id; otherwise recursively resolve the first parent's path, join the name,
cache and return it.  `fuel` bounds the parent recursion (a model artifact:
the source recurses without bound; with fuel exhausted the resolution yields
`None`). -/
def pathOid (rm : Remote) (fuel : Nat) (st : PState) (oid : String) (info? : Option GInfo)
    (useCache : Bool) : Option Path × PState :=
  let cached : Option Path :=
    if useCache then
      match st.ids.find? (fun kv => kv.2 = oid) with
      | some kv => some kv.1
      | none => (st.trashed.find? (fun kv => kv.2 = oid)).map (fun kv => kv.1)
    else none
  match cached with
  | some p => (some p, st)
  | none =>
    if oid = st.rootId then (some [], st)
    else
      let info? := match info? with
        | some i => some i
        | none => infoOidPure rm st oid
      match info? with
      | some info =>
        match info.pids with
        | [] => (none, st)
        | pid0 :: _ =>
          if info.name ≠ "" then
            match fuel with
            | 0 => (none, st)
            | fuel + 1 =>
              let r := pathOid rm fuel st pid0 none true
              match r.1 with
              | some ppath =>
                let path := joinP ppath [info.name]
                (some path, { r.2 with ids := dset r.2.ids path oid })
              | none => (none, r.2)
          else (none, st)
      | none => (none, st)

/-- `info_oid(oid, use_cache=True)`: `_info_oid` plus the (expensive) path
resolution through `_path_oid`. -/
def infoOid (rm : Remote) (fuel : Nat) (st : PState) (oid : String) (useCache : Bool) :
    Option GInfo × PState :=
  match infoOidPure rm st oid with
  | none => (none, st)
  | some info =>
    let r := pathOid rm fuel st oid (some info) useCache
    (some { info with path := r.1 }, r.2)

/-- `_get_parent_id(path, use_cache)`, parametrized by the `info_path`
recursion it invokes on a cache miss (the source functions are mutually
recursive; the wrapper below ties the knot with fuel).  A `.error` result is
the raised `CloudFileNotFoundError`.  The python falsy-path guard
(`if not path: return None`) concerns the empty string, which this embedding's
callers never produce (the root is `[]`, handled by the `parent == path`
branch). -/
def getParentIdCore (ip : PState → Path → Bool → Option GInfo × PState)
    (st : PState) (path : Path) (useCache : Bool) : Except String (Option String) × PState :=
  let parent := path.dropLast
  if parent = path then (.ok (cachedId st parent), st)
  else
    let cid := cachedId st parent
    if useCache ∧ cid.isSome then (.ok cid, st)
    else
      let r := ip st parent true
      match r.1 with
      | none => (.error "CloudFileNotFoundError", r.2)
      | some info => (.ok (cachedId r.2 (info.path.getD [])), r.2)

/-- `info_path(path, use_cache=True)`.  The root path caches the root id and
delegates to `info_oid`.  Otherwise: resolve the parent id (raised not-found
is caught and reported as `None`), run the name-filtered listing; on an empty
listing consult the live cache (`alt_oid`) and trust it when `info_oid`
confirms the id live at this very path, else fall to `None` — when the cache
has no id for the path, the source calls `_uncache(path)` (a no-op there) on
the way out; on a hit, skip trashed results, re-derive the leaf from the
server-reported name, cache the corrected path and return the info.  The
`pids` of the returned info are the raw `parents`: the source guards
`_resolve_missing_parent` on `res.get('shared')` where `res` is the response
dict, which has no such key, so that branch never fires here.  `fuel` bounds
the parent recursion (model artifact; exhaustion reports not-found). -/
def infoPath (rm : Remote) : Nat → PState → Path → Bool → Option GInfo × PState
  | fuel, st, [], _ =>
    let st1 := { st with ids := dset st.ids [] st.rootId }
    infoOid rm fuel st1 st.rootId true
  | 0, st, _ :: _, _ => (none, st)
  | fuel + 1, st, p :: ps, useCache =>
    let path := p :: ps
    let gp := getParentIdCore (fun s q u => infoPath rm fuel s q u) st path false
    match gp.1 with
    | .error _ => (none, gp.2)
    | .ok parentId? =>
      let parentId := parentId?.getD ""
      let name := path.getLastD ""
      let st1 := gp.2
      let res := infoPathQuery rm st1.rootId parentId name
      match res with
      | [] =>
        if useCache then
          match dget st1.ids path with
          | some altOid =>
            let r := infoOid rm fuel st1 altOid true
            match r.1 with
            | some altInfo =>
              if altInfo.path = some path then (some altInfo, r.2) else (none, r.2)
            | none => (none, r.2)
          | none => (none, uncache st1 path)
        else (none, st1)
      | ent :: _ =>
        if ent.trashed then (none, st1)
        else
          let oid := ent.id
          let pids := ent.parents
          let sname := ent.name
          let path2 := joinP path.dropLast [sname]
          let st2 := { st1 with ids := dset st1.ids path2 oid }
          (some { otype := if ent.mimeType = folderMimeType then .DIRECTORY else .FILE,
                  oid := oid, hash := ent.md5, path := some path2, pids := pids,
                  name := sname, shared := ent.shared, readonly := !ent.canEdit,
                  size := ent.size }, st2)

/-- `_get_parent_id` with the mutual recursion tied off at the given fuel. -/
def getParentId (rm : Remote) (fuel : Nat) (st : PState) (path : Path) (useCache : Bool) :
    Except String (Option String) × PState :=
  getParentIdCore (fun s q u => infoPath rm fuel s q u) st path useCache

/-- `mkdir(path)`: an existing file at the path raises
`CloudFileExistsError`; an existing non-file returns its oid with no create
call; otherwise resolve the parent from the just-refreshed cache, issue
`files.create` (whose fresh server id is supplied as `newId`; the create body
carries the name, parent and sidecar app-properties and does not affect local
state), cache the new id under the path and return it.  The final `Bool`
reports whether a create call was issued. -/
def mkdir (rm : Remote) (fuel : Nat) (st : PState) (path : Path) (newId : String) :
    Except String String × PState × Bool :=
  let r := infoPath rm fuel st path true
  match r.1 with
  | some info =>
    if info.otype = .FILE then (.error "CloudFileExistsError", r.2, false)
    else (.ok info.oid, r.2, false)
  | none =>
    let gp := getParentId rm fuel r.2 path true
    match gp.1 with
    | .error e => (.error e, gp.2, false)
    | .ok _ =>
      (.ok newId, { gp.2 with ids := dset gp.2.ids path newId }, true)

/-! Concrete fixtures used by the closed evaluations and witnesses below. -/

/-- A cache holding the directory `/a` (id `d1`) and its child `/a/b` (id `f2`). -/
def stDirChild : PState := ⟨[(["a"], "d1"), (["a", "b"], "f2")], [], "root1"⟩

/-- A change record for the directory `d1`, not removed. -/
def chDirD1 : Change := ⟨"d1", some false, some ⟨folderMimeType⟩⟩

/-- A cache holding a (stale) entry `/a → x` and nothing else. -/
def stStale : PState := ⟨[(["a"], "x")], [], "root1"⟩

/-- A cache whose trashed store holds `/a → x` and whose live store is empty. -/
def stTrashedA : PState := ⟨[], [(["a"], "x")], "root1"⟩

/-- An empty cache. -/
def stEmpty : PState := ⟨[], [], "root1"⟩

/-- The root folder resource of the fixture remotes. -/
def rootF : RFile := ⟨"root1", "My Drive", [], folderMimeType, false, false, false, true, [], none, 0⟩

/-- A remote holding only the root folder. -/
def rmRootOnly : Remote := ⟨[rootF]⟩

/-- A directory `d` (id `d1`) under the root. -/
def dirD : RFile := ⟨"d1", "d", ["root1"], folderMimeType, false, false, false, true, [], none, 0⟩

/-- A remote holding the root and the directory `/d`. -/
def rmWithDir : Remote := ⟨[rootF, dirD]⟩

/-- A plain file `f` (id `f9`) under the root. -/
def fileF : RFile := ⟨"f9", "f", ["root1"], "text/plain", false, false, false, true, [], some "h", 3⟩

/-- A remote holding the root and the file `/f`. -/
def rmWithFile : Remote := ⟨[rootF, fileF]⟩

/-- A plain file `a` (id `y1`) under the root. -/
def fileA : RFile := ⟨"y1", "a", ["root1"], "text/plain", false, false, false, true, [], some "h", 3⟩

/-- A remote holding the root and the file `/a`. -/
def rmWithA : Remote := ⟨[rootF, fileA]⟩

/-- A one-change page reporting new start token `B` and no next page. -/
def pgLast : ChangePage := ⟨[chDirD1], some "B", none⟩

/-- A cache holding the directory `/a`, its child `/a/b` and an unrelated
`/c` (rename-rewrite witness fixture). -/
def idsW : Dict := [(["a"], "d1"), (["a", "b"], "f1"), (["c"], "g1")]

/-! Association-list and path lemmas. -/

theorem dget_nil (k : Path) : dget [] k = none := rfl

theorem dget_cons (kv : Path × String) (rest : Dict) (k : Path) :
    dget (kv :: rest) k = if kv.1 = k then some kv.2 else dget rest k := by
  by_cases h : kv.1 = k
  · rw [dget, List.find?_cons_of_pos _ (by simpa using h), if_pos h]
    rfl
  · rw [dget, List.find?_cons_of_neg _ (by simpa using h), if_neg h]
    rfl

theorem dpop_nil (k : Path) : dpop [] k = [] := rfl

theorem dpop_cons (kv : Path × String) (rest : Dict) (k : Path) :
    dpop (kv :: rest) k = if kv.1 = k then dpop rest k else kv :: dpop rest k := by
  by_cases h : kv.1 = k
  · rw [dpop, List.filter_cons_of_neg (by simpa using h), if_pos h]
    rfl
  · rw [dpop, List.filter_cons_of_pos (by simpa using h), if_neg h]
    rfl

theorem dget_dset (d : Dict) (k : Path) (v : String) (k' : Path) :
    dget (dset d k v) k' = if k' = k then some v else dget d k' := by
  induction d with
  | nil =>
    show dget [(k, v)] k' = _
    rw [dget_cons, dget_nil]
    by_cases h : k' = k
    · rw [if_pos h.symm, if_pos h]
    · rw [if_neg (fun hh => h hh.symm), if_neg h]
  | cons kv rest ih =>
    show dget (if kv.1 = k then (k, v) :: rest else kv :: dset rest k v) k' = _
    by_cases hk : kv.1 = k
    · rw [if_pos hk, dget_cons, dget_cons]
      by_cases h : k' = k
      · rw [if_pos h.symm, if_pos h]
      · rw [if_neg (fun hh => h hh.symm), if_neg h,
          if_neg (by rw [hk]; exact fun hh => h hh.symm)]
    · rw [if_neg hk, dget_cons, dget_cons, ih]
      by_cases h1 : kv.1 = k'
      · have h2 : ¬ k' = k := by
          intro hh
          rw [hh] at h1
          exact hk h1
        rw [if_pos h1, if_neg h2, if_pos h1]
      · rw [if_neg h1, if_neg h1]

theorem dget_dpop (d : Dict) (k : Path) (k' : Path) :
    dget (dpop d k) k' = if k' = k then none else dget d k' := by
  induction d with
  | nil =>
    rw [dpop_nil, dget_nil]
    by_cases h : k' = k
    · rw [if_pos h]
    · rw [if_neg h]
  | cons kv rest ih =>
    rw [dpop_cons]
    by_cases hk : kv.1 = k
    · rw [if_pos hk, ih, dget_cons]
      by_cases h : k' = k
      · rw [if_pos h, if_pos h]
      · rw [if_neg h, if_neg h, if_neg (by rw [hk]; exact fun hh => h hh.symm)]
    · rw [if_neg hk, dget_cons, ih, dget_cons]
      by_cases h1 : kv.1 = k'
      · have h2 : ¬ k' = k := by
          intro hh
          rw [hh] at h1
          exact hk h1
        rw [if_pos h1, if_neg h2, if_pos h1]
      · rw [if_neg h1, if_neg h1]

theorem dget_mem (d : Dict) (k : Path) (v : String) (h : dget d k = some v) : (k, v) ∈ d := by
  induction d with
  | nil => cases h
  | cons kv rest ih =>
    rw [dget_cons] at h
    by_cases hk : kv.1 = k
    · rw [if_pos hk] at h
      injection h with h2
      obtain ⟨k1, v1⟩ := kv
      dsimp at hk h2
      rw [← hk, ← h2]
      exact List.mem_cons_self _ _
    · rw [if_neg hk] at h
      exact List.mem_cons_of_mem _ (ih h)

theorem isPrefixL_iff (a b : List String) :
    isPrefixL a b = true ↔ ∃ t, b = a ++ t := by
  induction a generalizing b with
  | nil => simp [isPrefixL]
  | cons x as ih =>
    cases b with
    | nil =>
      simp only [isPrefixL]
      constructor
      · intro h; cases h
      · rintro ⟨t, ht⟩; cases ht
    | cons y bs =>
      simp only [isPrefixL, Bool.and_eq_true, beq_iff_eq, ih]
      constructor
      · rintro ⟨hxy, t, ht⟩
        refine ⟨t, ?_⟩
        rw [← hxy, ht]
        rfl
      · rintro ⟨t, ht⟩
        injection ht with h1 h2
        exact ⟨h1.symm, t, h2⟩

theorem isPrefixL_append_self (a t : List String) : isPrefixL a (a ++ t) = true :=
  (isPrefixL_iff a (a ++ t)).mpr ⟨t, rfl⟩

theorem isPrefixL_total (a b c : List String) (ha : isPrefixL a c = true)
    (hb : isPrefixL b c = true) : isPrefixL a b = true ∨ isPrefixL b a = true := by
  obtain ⟨t, ht⟩ := (isPrefixL_iff a c).mp ha
  obtain ⟨u, hu⟩ := (isPrefixL_iff b c).mp hb
  rcases le_total a.length b.length with hle | hle
  · left
    refine (isPrefixL_iff a b).mpr ⟨b.drop a.length, ?_⟩
    have h1 : List.take a.length b = a := by
      rw [← @List.take_append_of_le_length _ b u a.length hle, ← hu, ht, List.take_left]
    calc b = List.take a.length b ++ List.drop a.length b := (List.take_append_drop _ _).symm
      _ = a ++ List.drop a.length b := by rw [h1]
  · right
    refine (isPrefixL_iff b a).mpr ⟨a.drop b.length, ?_⟩
    have h1 : List.take b.length a = b := by
      rw [← @List.take_append_of_le_length _ a t b.length hle, ← ht, hu, List.take_left]
    calc a = List.take b.length a ++ List.drop b.length a := (List.take_append_drop _ _).symm
      _ = b ++ List.drop b.length a := by rw [h1]

theorem lowerPath_append (p q : Path) : lowerPath (p ++ q) = lowerPath p ++ lowerPath q :=
  List.map_append _ p q

theorem isSubpath_some (P k rel : Path) (h : isSubpath P k = some rel) :
    rel = k.drop P.length ∧ lowerPath k = lowerPath P ++ lowerPath rel := by
  rw [isSubpath] at h
  split at h
  · rename_i hpre
    injection h with h1
    obtain ⟨t, ht⟩ := (isPrefixL_iff _ _).mp hpre
    refine ⟨h1.symm, ?_⟩
    rw [← h1]
    simp only [lowerPath] at ht ⊢
    rw [List.map_drop, ht,
      show P.length = (List.map lowerStr P).length from (List.length_map _ _).symm,
      List.drop_left]
  · cases h

theorem isSubpath_none_iff (P Q : Path) :
    isSubpath P Q = none ↔ isPrefixL (lowerPath P) (lowerPath Q) = false := by
  rw [isSubpath]
  constructor
  · intro h
    by_cases hp : isPrefixL (lowerPath P) (lowerPath Q) = true
    · rw [if_pos hp] at h; cases h
    · exact Bool.not_eq_true _ |>.mp hp
  · intro h
    rw [if_neg (by rw [h]; exact Bool.false_ne_true)]

theorem isSubpath_join_none (P Q rel : Path) (hPQ : isSubpath P Q = none)
    (hQP : isSubpath Q P = none) : isSubpath P (joinP Q rel) = none := by
  rw [isSubpath_none_iff] at hPQ hQP ⊢
  by_contra hne
  have hpre : isPrefixL (lowerPath P) (lowerPath (joinP Q rel)) = true := by
    cases h : isPrefixL (lowerPath P) (lowerPath (joinP Q rel))
    · exact absurd h hne
    · rfl
  rw [joinP, lowerPath_append] at hpre
  have hq : isPrefixL (lowerPath Q) (lowerPath Q ++ lowerPath rel) = true :=
    isPrefixL_append_self _ _
  rcases isPrefixL_total _ _ _ hpre hq with h | h
  · rw [h] at hPQ; cases hPQ
  · rw [h] at hQP; cases hQP

theorem isSubpath_some_ne_none (P a b : Path) (ha : (isSubpath P a).isSome)
    (hb : isSubpath P b = none) : a ≠ b := by
  intro h
  rw [h, hb] at ha
  cases ha

/-! The claim theorems. -/

/-- C1: the spec claims that for a change record embedding a directory, every
cached path descending from any path previously cached for that record's id
is removed before the next record.  The source guards the descendant sweep on
the event's `path`, which `_convert_to_event` fixes to `None`, so the sweep
never runs: with the directory `d1` cached at `/a` and its child `f2` cached
at `/a/b`, a non-removed directory change for `d1` removes `/a` (a path of the
changed id) but leaves the descendant `/a/b` cached. -/
theorem convert_to_event_directory_change_keeps_descendant :
    (convertToEvent stDirChild chDirD1 none).1.otype = OType.DIRECTORY
    ∧ dget stDirChild.ids ["a", "b"] = some "f2"
    ∧ dget (convertToEvent stDirChild chDirD1 none).2.ids ["a"] = none
    ∧ dget (convertToEvent stDirChild chDirD1 none).2.ids ["a", "b"] = some "f2" :=
  ⟨rfl, rfl, rfl, rfl⟩

/-- C2: the spec claims `_clear_cache` with a non-empty scope removes exactly
the entries whose id matches the scope oid or whose path is under the scope
path, from both stores.  The source binds `for coid, cpath in items()` with
the tuple components swapped (`coid` is the path, `cpath` the id), so it
compares paths against the scope oid and ids against the scope path: scoping
by the very oid `x` cached at `/a`, and scoping by the very path `/a`, both
remove nothing (the call still returns `True`). -/
theorem clear_cache_scoped_removes_nothing :
    dget stStale.ids ["a"] = some "x"
    ∧ clearCache stStale (some "x") none = .ok (stStale, true)
    ∧ clearCache stStale none (some ["a"]) = .ok (stStale, true) :=
  ⟨rfl, by rfl, by rfl⟩

/-- C3: the spec claims that when the remote listing reports no files and the
cached id for the path cannot be confirmed live there, the stale cache entry
under the path is invalidated before reporting not-found.  In the source the
`_uncache(path)` call sits on the `alt_oid is None` branch — where the cache
has no entry for the path and `_uncache` is a no-op — so with `/a → x` cached,
`x` absent from the remote and an empty listing, `info_path` returns `None`
and the stale entry survives. -/
theorem info_path_notfound_leaves_stale_entry :
    dget stStale.ids ["a"] = some "x"
    ∧ (infoPath rmRootOnly 5 stStale ["a"] true).1 = none
    ∧ dget (infoPath rmRootOnly 5 stStale ["a"] true).2.ids ["a"] = some "x" :=
  ⟨rfl, rfl, rfl⟩

/-- C5 counterexample: the claim places forcibly closed connections
(`ConnectionResetError`) among the Disconnected-after-forced-disconnect
failures, but the source maps them to a retryable `CloudTemporaryError` with
no disconnect. -/
theorem connection_reset_is_temporary_not_disconnected :
    translateApiError .connectionReset = (.temporaryError, false)
    ∧ (translateApiError .connectionReset).1 ≠ .disconnectedError
    ∧ (translateApiError .connectionReset).2 = false :=
  ⟨rfl, by decide, rfl⟩

/-- C5 (amended): 401 raises the token error after a forced disconnect; 429,
and 403 with a rate-limit reason, raise the retryable temporary error;
timeouts and transport-level (`HttpLib2Error`) failures raise Disconnected
after a forced disconnect; a forcibly closed connection raises the retryable
temporary error without a disconnect; and any status/reason combination not
covered by the cascade (nor by the transport's own retry heuristic) is
re-raised unmodified. -/
theorem api_error_taxonomy_amended :
    (∀ reason, translateApiError (.httpError 401 reason) = (.tokenError, true))
    ∧ (∀ reason, translateApiError (.httpError 429 reason) = (.temporaryError, false))
    ∧ (∀ reason, (reason = "userRateLimitExceeded" ∨ reason = "rateLimitExceeded" ∨
        reason = "dailyLimitExceeded") →
        translateApiError (.httpError 403 reason) = (.temporaryError, false))
    ∧ translateApiError .timeoutError = (.disconnectedError, true)
    ∧ translateApiError .httpLib2Error = (.disconnectedError, true)
    ∧ translateApiError .connectionReset = (.temporaryError, false)
    ∧ (∀ status reason, status ≠ 416 → status ≠ 413 → status ≠ 409 → status ≠ 404 →
        status ≠ 401 → status ≠ 429 →
        (status = 403 → reason ≠ "storageQuotaExceeded" ∧ reason ≠ "parentNotAFolder" ∧
          reason ≠ "insufficientFilePermissions" ∧ reason ≠ "userRateLimitExceeded" ∧
          reason ≠ "rateLimitExceeded" ∧ reason ≠ "dailyLimitExceeded") →
        shouldRetryResponse status reason = false →
        translateApiError (.httpError status reason) = (.reraised, false)) := by
  refine ⟨fun _ => rfl, fun _ => rfl, ?_, rfl, rfl, rfl, ?_⟩
  · intro reason h
    rcases h with h | h | h <;> rw [h] <;> rfl
  · intro status reason h416 h413 h409 h404 h401 h429 h403 hretry
    simp only [translateApiError]
    rw [if_neg h416, if_neg h413, if_neg h409, if_neg h404,
      if_neg (fun hc => (h403 hc.1).1 hc.2), if_neg h401,
      if_neg (fun hc => (h403 hc.1).2.1 hc.2),
      if_neg (fun hc => (h403 hc.1).2.2.1 hc.2),
      if_neg (fun hc => hc.elim
        (fun hc2 => hc2.2.elim (fun e => (h403 hc2.1).2.2.2.1 e)
          (fun hr => hr.elim (fun e => (h403 hc2.1).2.2.2.2.1 e)
            (fun e => (h403 hc2.1).2.2.2.2.2 e)))
        (fun h => h429 h)),
      if_neg (by rw [hretry]; exact Bool.false_ne_true)]

/-- C5 witness: the amended taxonomy at concrete failures, including an
uncovered `400 badRequest` that is re-raised. -/
theorem api_error_taxonomy_amended_witness :
    translateApiError (.httpError 403 "rateLimitExceeded") = (.temporaryError, false)
    ∧ translateApiError (.httpError 400 "badRequest") = (.reraised, false) :=
  ⟨api_error_taxonomy_amended.2.2.1 "rateLimitExceeded" (Or.inr (Or.inl rfl)),
   api_error_taxonomy_amended.2.2.2.2.2.2 400 "badRequest" (by decide) (by decide)
     (by decide) (by decide) (by decide) (by decide)
     (fun h => absurd h (by decide)) (by decide)⟩

/-- C7 counterexample: the claim states no path ever appears in both the live
and the trashed cache across every operation.  With `/a → x` in the trashed
cache (as `_uncache` leaves it) and the file `a` re-created remotely with id
`y1`, a successful `info_path("/a")` re-caches the live entry without
touching the trashed store, leaving `/a` in both. -/
theorem path_in_live_and_trashed_after_recreate :
    dget stTrashedA.ids ["a"] = none
    ∧ dget stTrashedA.trashed ["a"] = some "x"
    ∧ dget (infoPath rmWithA 5 stTrashedA ["a"] true).2.ids ["a"] = some "y1"
    ∧ dget (infoPath rmWithA 5 stTrashedA ["a"] true).2.trashed ["a"] = some "x" :=
  ⟨rfl, rfl, rfl, rfl⟩

/-- C8: for a record lacking parent ids and marked shared,
`_resolve_missing_parent` returns exactly the non-empty sidecar `pid`
app-property when present, and exactly the root id otherwise; the result is
always a one-element list. -/
theorem resolve_missing_parent_sidecar_or_root (st : PState) (props : List (String × String)) :
    (resolveMissingParent st props).length = 1
    ∧ (∀ p, lookupProp props "pid" = some p → p ≠ "" → resolveMissingParent st props = [p])
    ∧ ((lookupProp props "pid" = none ∨ lookupProp props "pid" = some "") →
        resolveMissingParent st props = [st.rootId]) := by
  cases h : lookupProp props "pid" with
  | none =>
    refine ⟨by simp [resolveMissingParent, h], ?_, fun _ => by simp [resolveMissingParent, h]⟩
    intro p hp
    cases hp
  | some q =>
    by_cases hq : q = ""
    · subst hq
      refine ⟨by simp [resolveMissingParent, h], ?_, fun _ => by simp [resolveMissingParent, h]⟩
      intro p hp hpne
      injection hp with hqp
      exact absurd hqp.symm hpne
    · refine ⟨by simp [resolveMissingParent, h, hq], ?_, ?_⟩
      · intro p hp _
        injection hp with hqp
        subst hqp
        simp [resolveMissingParent, h, hq]
      · intro hor
        rcases hor with hor | hor
        · cases hor
        · injection hor with h2
          exact absurd h2 hq

/-- C8 witness: a non-empty sidecar pid is used as the sole parent; with no
sidecar the root id is the sole parent. -/
theorem resolve_missing_parent_witness :
    resolveMissingParent stEmpty [("pid", "x")] = ["x"]
    ∧ resolveMissingParent stEmpty [] = ["root1"] :=
  ⟨(resolve_missing_parent_sidecar_or_root stEmpty [("pid", "x")]).2.1 "x" rfl (by decide),
   (resolve_missing_parent_sidecar_or_root stEmpty []).2.2 (Or.inl rfl)⟩

/-- C9: the event produced from a raw change record has `exists == False`
iff the record is flagged `removed=True`, and `exists == Unknown` (`None`)
otherwise; it is never `True`. -/
theorem change_event_exists_tristate (st : PState) (ch : Change) (nc : Option String) :
    ((convertToEvent st ch nc).1.exists? = some false ↔ ch.removed = some true)
    ∧ (convertToEvent st ch nc).1.exists? ≠ some true := by
  have hev : (convertToEvent st ch nc).1.exists?
      = (if ch.removed = some true then some false else none) := rfl
  by_cases hr : ch.removed = some true
  · rw [hev, if_pos hr]
    exact ⟨⟨fun _ => hr, fun _ => rfl⟩,
      fun hh => Bool.noConfusion (Option.some.inj hh)⟩
  · rw [hev, if_neg hr]
    exact ⟨⟨fun hh => Option.noConfusion hh, fun hh => absurd hh hr⟩,
      fun hh => Option.noConfusion hh⟩

/-- C9 witness: a removed record yields `exists = False`; a live directory
record yields an `exists` that is not `True`. -/
theorem change_event_exists_witness :
    (convertToEvent stEmpty ⟨"d1", some true, none⟩ none).1.exists? = some false
    ∧ (convertToEvent stEmpty chDirD1 none).1.exists? ≠ some true :=
  ⟨(change_event_exists_tristate stEmpty ⟨"d1", some true, none⟩ none).1.mpr rfl,
   (change_event_exists_tristate stEmpty chDirD1 none).2⟩

/-- C10 counterexample: the claim states `mkdir` on a path holding an
existing directory returns its oid without changing the cache; the `info_path`
probe that `mkdir` issues first caches the resolved entry, so the cache does
change (from empty to holding `/d` and the root). -/
theorem mkdir_existing_dir_caches_entry :
    (mkdir rmWithDir 5 stEmpty ["d"] "zz").1 = .ok "d1"
    ∧ (mkdir rmWithDir 5 stEmpty ["d"] "zz").2.2 = false
    ∧ dget stEmpty.ids ["d"] = none
    ∧ dget (mkdir rmWithDir 5 stEmpty ["d"] "zz").2.1.ids ["d"] = some "d1" :=
  ⟨rfl, rfl, rfl, rfl⟩

/-- C10 (amended): when the `info_path` probe reports an existing directory,
`mkdir` returns that directory's oid, issues no `files.create` call, and
performs no cache mutation beyond those of the `info_path` probe itself (the
resulting state is exactly the probe's output state); when the probe reports
a file, `mkdir` raises `CloudFileExistsError` and creates nothing. -/
theorem mkdir_existing_path_no_create (rm : Remote) (fuel : Nat) (st : PState) (path : Path)
    (newId : String) (i : GInfo) (st1 : PState)
    (h : infoPath rm fuel st path true = (some i, st1)) :
    (i.otype = .DIRECTORY → mkdir rm fuel st path newId = (.ok i.oid, st1, false))
    ∧ (i.otype = .FILE →
        mkdir rm fuel st path newId = (.error "CloudFileExistsError", st1, false)) := by
  constructor
  · intro hdir
    simp only [mkdir, h]
    rw [if_neg (by rw [hdir]; exact fun hh => OType.noConfusion hh)]
  · intro hfile
    simp only [mkdir, h]
    rw [if_pos hfile]

/-- C10 witness: the amended statement at the concrete fixtures — an existing
directory `/d` and an existing file `/f`. -/
theorem mkdir_existing_path_no_create_witness :
    mkdir rmWithDir 5 stEmpty ["d"] "zz"
      = (.ok "d1", ⟨[([], "root1"), (["d"], "d1")], [], "root1"⟩, false)
    ∧ mkdir rmWithFile 5 stEmpty ["f"] "zz"
      = (.error "CloudFileExistsError", ⟨[([], "root1"), (["f"], "f9")], [], "root1"⟩, false) :=
  ⟨(mkdir_existing_path_no_create rmWithDir 5 stEmpty ["d"] "zz"
      ⟨.DIRECTORY, "d1", none, some ["d"], ["root1"], "d", false, false, 0⟩
      ⟨[([], "root1"), (["d"], "d1")], [], "root1"⟩ rfl).1 rfl,
   (mkdir_existing_path_no_create rmWithFile 5 stEmpty ["f"] "zz"
      ⟨.FILE, "f9", some "h", some ["f"], ["root1"], "f", false, false, 3⟩
      ⟨[([], "root1"), (["f"], "f9")], [], "root1"⟩ rfl).2 rfl⟩

theorem renameStep_matched (P Q : Path) (d : Dict) (kv : Path × String) (rel : Path)
    (h : isSubpath P kv.1 = some rel) :
    renameStep P Q d kv = dset (dpop d kv.1) (joinP Q rel) kv.2 := by
  simp only [renameStep, h]

theorem renameStep_unmatched (P Q : Path) (d : Dict) (kv : Path × String)
    (h : isSubpath P kv.1 = none) : renameStep P Q d kv = d := by
  simp only [renameStep, h]

theorem renameFold_preserve (P Q : Path) (l : List (Path × String)) :
    ∀ (d : Dict) (key : Path) (v : String), dget d key = some v →
      (∀ kv ∈ l, ∀ rel, isSubpath P kv.1 = some rel → kv.1 ≠ key ∧ joinP Q rel ≠ key) →
      dget (l.foldl (renameStep P Q) d) key = some v := by
  induction l with
  | nil =>
    intro d key v h _
    exact h
  | cons kv l ih =>
    intro d key v h hcond
    rw [List.foldl_cons]
    cases hsub : isSubpath P kv.1 with
    | none =>
      refine ih _ _ _ ?_ (fun kv' hm => hcond kv' (List.mem_cons_of_mem _ hm))
      rw [renameStep_unmatched _ _ _ _ hsub]
      exact h
    | some rel =>
      have hc := hcond kv (List.mem_cons_self _ _) rel hsub
      refine ih _ _ _ ?_ (fun kv' hm => hcond kv' (List.mem_cons_of_mem _ hm))
      rw [renameStep_matched _ _ _ _ _ hsub, dget_dset,
        if_neg (fun hh => hc.2 hh.symm), dget_dpop, if_neg (fun hh => hc.1 hh.symm)]
      exact h

theorem renameFold_sweep (P Q : Path) (hjoin : ∀ rel, isSubpath P (joinP Q rel) = none)
    (l : List (Path × String)) :
    ∀ d : Dict, (∀ k, (isSubpath P k).isSome → dget d k = none ∨ ∃ v, (k, v) ∈ l) →
      ∀ k, (isSubpath P k).isSome → dget (l.foldl (renameStep P Q) d) k = none := by
  induction l with
  | nil =>
    intro d hinv k hk
    rcases hinv k hk with h | ⟨v, hv⟩
    · exact h
    · cases hv
  | cons kv l ih =>
    intro d hinv k hk
    rw [List.foldl_cons]
    refine ih _ ?_ k hk
    intro k' hk'
    cases hsub : isSubpath P kv.1 with
    | none =>
      rw [renameStep_unmatched _ _ _ _ hsub]
      rcases hinv k' hk' with h | ⟨v, hv⟩
      · exact Or.inl h
      · rcases List.mem_cons.mp hv with he | hm
        · exfalso
          have hfst : k' = kv.1 := congrArg Prod.fst he
          rw [hfst, hsub] at hk'
          simp at hk'
        · exact Or.inr ⟨v, hm⟩
    | some rel =>
      rw [renameStep_matched _ _ _ _ _ hsub, dget_dset, dget_dpop]
      by_cases h1 : k' = joinP Q rel
      · exfalso
        rw [h1, hjoin rel] at hk'
        simp at hk'
      · rw [if_neg h1]
        by_cases h2 : k' = kv.1
        · rw [if_pos h2]
          exact Or.inl rfl
        · rw [if_neg h2]
          rcases hinv k' hk' with h | ⟨v, hv⟩
          · exact Or.inl h
          · rcases List.mem_cons.mp hv with he | hm
            · exact absurd (congrArg Prod.fst he) h2
            · exact Or.inr ⟨v, hm⟩

/-- C6: after the `rename` cache rewrite from a known old directory path `P`
to a new path `Q` (neither path under the other — as holds for any rename the
remote can accept that is not a pure case change — and with cached keys
distinct case-insensitively, as the case-insensitive provider maintains),
every entry previously cached at a path under `P` with relative remainder `x`
is re-keyed to `Q/x` with the same id, and no entry keyed under `P` remains
in the live cache. -/
theorem rename_rewrites_cached_subtree (ids : Dict) (P Q : Path) (doid : String)
    (hnodup : (ids.map (fun kv => lowerPath kv.1)).Nodup)
    (hP : dget ids P = some doid)
    (hPQ : isSubpath P Q = none) (hQP : isSubpath Q P = none) :
    (∀ k v rel, (k, v) ∈ ids → isSubpath P k = some rel →
        dget (renameSubtreeCache ids P Q) (joinP Q rel) = some v)
    ∧ (∀ k, (isSubpath P k).isSome → dget (renameSubtreeCache ids P Q) k = none) := by
  have hjoin : ∀ rel, isSubpath P (joinP Q rel) = none :=
    fun rel => isSubpath_join_none P Q rel hPQ hQP
  constructor
  · intro k v rel hmem hsub
    obtain ⟨l1, l2, hsplit⟩ := List.append_of_mem hmem
    rw [renameSubtreeCache, hsplit, List.foldl_append, List.foldl_cons]
    refine renameFold_preserve P Q l2 _ _ _ ?_ ?_
    · rw [renameStep_matched _ _ _ _ _ hsub, dget_dset, if_pos rfl]
    · intro kv' hm rel' hsub'
      constructor
      · exact isSubpath_some_ne_none P kv'.1 (joinP Q rel)
          (by rw [hsub']; rfl) (hjoin rel)
      · intro heq
        have heq2 : Q ++ rel' = Q ++ rel := heq
        have hrel : rel' = rel := List.append_cancel_left heq2
        have hk1 := (isSubpath_some _ _ _ hsub').2
        have hk2 := (isSubpath_some _ _ _ hsub).2
        have heqlow : lowerPath kv'.1 = lowerPath k := by rw [hk1, hk2, hrel]
        have hnd := hnodup
        rw [hsplit, List.map_append, List.map_cons] at hnd
        have hnd2 := hnd.of_append_right
        exact (List.nodup_cons.mp hnd2).1
          (by rw [← heqlow]; exact List.mem_map_of_mem _ hm)
  · intro k hk
    rw [renameSubtreeCache]
    refine renameFold_sweep P Q hjoin ids ids ?_ k hk
    intro k' _
    cases hd : dget ids k' with
    | none => exact Or.inl rfl
    | some v => exact Or.inr ⟨v, dget_mem _ _ _ hd⟩

/-- C6 witness: renaming the cached directory `/a` to `/q` re-keys the cached
child `/a/b → f1` to `/q/b → f1` and leaves no `/a/b` entry. -/
theorem rename_rewrites_cached_subtree_witness :
    dget (renameSubtreeCache idsW ["a"] ["q"]) ["q", "b"] = some "f1"
    ∧ dget (renameSubtreeCache idsW ["a"] ["q"]) ["a", "b"] = none :=
  ⟨(rename_rewrites_cached_subtree idsW ["a"] ["q"] "d1" (by decide) rfl rfl rfl).1
      ["a", "b"] "f1" ["b"] (by decide) rfl,
   (rename_rewrites_cached_subtree idsW ["a"] ["q"] "d1" (by decide) rfl rfl rfl).2
      ["a", "b"] (by decide)⟩

theorem uncacheStep_fst (oid : String) (path : Path) (acc : Dict × Dict)
    (kv : Path × String) :
    (uncacheStep oid path acc kv).1
      = if kv.2 = oid ∨ (isSubpath path kv.1).isSome then dpop acc.1 kv.1 else acc.1 := by
  rw [uncacheStep]
  by_cases h1 : kv.2 = oid
  · rw [if_pos h1, if_pos (Or.inl h1)]
  · rw [if_neg h1]
    by_cases h2 : (isSubpath path kv.1).isSome
    · rw [if_pos h2, if_pos (Or.inr h2)]
    · rw [if_neg h2, if_neg (by rintro (h | h); exact h1 h; exact h2 h)]

theorem uncacheStep_snd (oid : String) (path : Path) (acc : Dict × Dict)
    (kv : Path × String) :
    (uncacheStep oid path acc kv).2
      = if kv.2 = oid then dset acc.2 kv.1 kv.2 else acc.2 := by
  rw [uncacheStep]
  by_cases h1 : kv.2 = oid
  · rw [if_pos h1, if_pos h1]
  · rw [if_neg h1, if_neg h1]
    by_cases h2 : (isSubpath path kv.1).isSome
    · rw [if_pos h2]
    · rw [if_neg h2]

theorem uncacheFold_disjoint (oid : String) (path : Path) (l : List (Path × String)) :
    ∀ acc : Dict × Dict, (∀ k, dget acc.2 k ≠ none → dget acc.1 k = none) →
      ∀ k, dget (l.foldl (uncacheStep oid path) acc).2 k ≠ none →
        dget (l.foldl (uncacheStep oid path) acc).1 k = none := by
  induction l with
  | nil =>
    intro acc h k hk
    exact h k hk
  | cons kv l ih =>
    intro acc h k hk
    rw [List.foldl_cons] at hk ⊢
    refine ih _ ?_ k hk
    intro k' hk'
    rw [uncacheStep_snd] at hk'
    rw [uncacheStep_fst]
    by_cases h1 : kv.2 = oid ∨ (isSubpath path kv.1).isSome
    · rw [if_pos h1, dget_dpop]
      by_cases hkk : k' = kv.1
      · rw [if_pos hkk]
      · rw [if_neg hkk]
        apply h
        by_cases hm : kv.2 = oid
        · rw [if_pos hm, dget_dset, if_neg hkk] at hk'
          exact hk'
        · rw [if_neg hm] at hk'
          exact hk'
    · rw [if_neg h1]
      apply h
      rw [if_neg (fun hh => h1 (Or.inl hh))] at hk'
      exact hk'

theorem uncacheFold_ids_none (oid : String) (path : Path) (l : List (Path × String)) :
    ∀ acc : Dict × Dict, ∀ p, dget acc.1 p = none →
      dget (l.foldl (uncacheStep oid path) acc).1 p = none := by
  induction l with
  | nil =>
    intro acc p h
    exact h
  | cons kv l ih =>
    intro acc p h
    rw [List.foldl_cons]
    apply ih
    rw [uncacheStep_fst]
    by_cases h1 : kv.2 = oid ∨ (isSubpath path kv.1).isSome
    · rw [if_pos h1, dget_dpop]
      by_cases hkk : p = kv.1
      · rw [if_pos hkk]
      · rw [if_neg hkk]
        exact h
    · rw [if_neg h1]
      exact h

theorem uncacheFold_trashed_keep (oid : String) (path : Path) (l : List (Path × String)) :
    ∀ acc : Dict × Dict, ∀ p w, dget acc.2 p = some w → (∀ kv ∈ l, kv.1 ≠ p) →
      dget (l.foldl (uncacheStep oid path) acc).2 p = some w := by
  induction l with
  | nil =>
    intro acc p w h _
    exact h
  | cons kv l ih =>
    intro acc p w h hne
    rw [List.foldl_cons]
    refine ih _ _ _ ?_ (fun kv' hm => hne kv' (List.mem_cons_of_mem _ hm))
    rw [uncacheStep_snd]
    by_cases h1 : kv.2 = oid
    · rw [if_pos h1, dget_dset,
        if_neg (fun hh => hne kv (List.mem_cons_self _ _) hh.symm)]
      exact h
    · rw [if_neg h1]
      exact h

/-- C7 (amended): `_uncache` itself is atomic — it preserves disjointness of
the live and trashed stores, and every live path mapping to the uncached id
is moved into the trashed store and removed from the live store in the same
operation.  (The claim's universal invariant over every operation fails: see
the counterexample, where a later live insertion does not purge the trashed
entry.) -/
theorem uncache_moves_paths_atomically (st : PState) (path : Path)
    (hkeys : (st.ids.map (fun kv => kv.1)).Nodup)
    (hdisj : ∀ k, dget st.trashed k ≠ none → dget st.ids k = none) :
    (∀ k, dget (uncache st path).trashed k ≠ none → dget (uncache st path).ids k = none)
    ∧ (∀ p oid, cachedId st path = some oid → dget st.ids p = some oid →
        dget (uncache st path).ids p = none
        ∧ dget (uncache st path).trashed p = some oid) := by
  constructor
  · intro k hk
    cases hc : cachedId st path with
    | none =>
      simp only [uncache, hc] at hk ⊢
      exact hdisj k hk
    | some oid =>
      simp only [uncache, hc] at hk ⊢
      exact uncacheFold_disjoint oid path st.ids (st.ids, st.trashed) hdisj k hk
  · intro p oid hc hp
    simp only [uncache, hc]
    obtain ⟨l1, l2, hsplit⟩ := List.append_of_mem (dget_mem _ _ _ hp)
    have hp_notin_l2 : ∀ kv ∈ l2, kv.1 ≠ p := by
      intro kv hm
      have hnd := hkeys
      rw [hsplit, List.map_append, List.map_cons] at hnd
      have hnd2 := hnd.of_append_right
      intro hh
      have hmem2 : kv.1 ∈ List.map (fun kv => kv.1) l2 := List.mem_map_of_mem _ hm
      rw [hh] at hmem2
      exact (List.nodup_cons.mp hnd2).1 hmem2
    constructor
    · rw [hsplit, List.foldl_append, List.foldl_cons]
      apply uncacheFold_ids_none
      rw [uncacheStep_fst, if_pos (Or.inl rfl), dget_dpop, if_pos rfl]
    · rw [hsplit, List.foldl_append, List.foldl_cons]
      refine uncacheFold_trashed_keep oid path l2 _ _ _ ?_ hp_notin_l2
      rw [uncacheStep_snd, if_pos rfl, dget_dset, if_pos rfl]

/-- C7 witness: the amended statement at a concrete cache — uncaching `/a`
(id `x`) moves the entry from the live to the trashed store. -/
theorem uncache_moves_paths_atomically_witness :
    dget (uncache stStale ["a"]).ids ["a"] = none
    ∧ dget (uncache stStale ["a"]).trashed ["a"] = some "x" :=
  (uncache_moves_paths_atomically stStale ["a"] (by decide)
    (fun _ hk => absurd rfl hk)).2 ["a"] "x" rfl rfl

theorem runEvents_none (st : PState) (cursor : String) (pages : List ChangePage) :
    runEvents st cursor none pages = ([], cursor, st) := by
  cases pages <;> rfl

theorem convertPage_length (st : PState) (chs : List Change) (nc : Option String) :
    (convertPage st chs nc).1.length = chs.length := by
  induction chs generalizing st with
  | nil => rfl
  | cons ch rest ih =>
    simp only [convertPage, List.length_cons, ih]

/-- C4: per-page cursor commit of the `events()` stream.  Events of a page
are delivered with the externally visible cursor unchanged (it is never
advanced while events of the page remain undelivered); the remainder of the
trace is exactly the stream resumed from the committed cursor (i.e., the
commit happens as the caller pulls past the page); the committed cursor is
the page's reported non-empty new start token (the commit guard requires the
token distinct from the page token, the condition the source tests); and when
the stream is exhausted at this page the final cursor equals that commit. -/
theorem events_cursor_commit_per_page (st : PState) (cur tok : String) (pg : ChangePage)
    (rest : List ChangePage) :
    (∀ p ∈ ((runEvents st cur (some tok) (pg :: rest)).1.take pg.changes.length), p.2 = cur)
    ∧ (runEvents st cur (some tok) (pg :: rest)).1.drop pg.changes.length
        = (runEvents (convertPage st pg.changes pg.newStartPageToken).2
            (commitCursor cur tok pg.newStartPageToken) pg.nextPageToken rest).1
    ∧ (∀ nc, pg.newStartPageToken = some nc → nc ≠ "" → tok ≠ "" → nc ≠ tok →
        commitCursor cur tok pg.newStartPageToken = nc)
    ∧ (pg.nextPageToken = none →
        (runEvents st cur (some tok) (pg :: rest)).2.1
          = commitCursor cur tok pg.newStartPageToken) := by
  have hlen : ((convertPage st pg.changes pg.newStartPageToken).1.map
      (fun e => (e, cur))).length = pg.changes.length := by
    rw [List.length_map, convertPage_length]
  have hrun1 : (runEvents st cur (some tok) (pg :: rest)).1
      = (convertPage st pg.changes pg.newStartPageToken).1.map (fun e => (e, cur))
        ++ (runEvents (convertPage st pg.changes pg.newStartPageToken).2
            (commitCursor cur tok pg.newStartPageToken) pg.nextPageToken rest).1 := rfl
  have hrun2 : (runEvents st cur (some tok) (pg :: rest)).2.1
      = (runEvents (convertPage st pg.changes pg.newStartPageToken).2
          (commitCursor cur tok pg.newStartPageToken) pg.nextPageToken rest).2.1 := rfl
  refine ⟨?_, ?_, ?_, ?_⟩
  · intro p hp
    rw [hrun1, ← hlen, List.take_left] at hp
    obtain ⟨e, _, hpe⟩ := List.mem_map.mp hp
    rw [← hpe]
  · rw [hrun1, ← hlen, List.drop_left]
  · intro nc hnc h1 h2 h3
    rw [hnc]
    simp only [commitCursor]
    rw [if_pos ⟨h1, h2, h3⟩]
  · intro hnone
    rw [hrun2, hnone, runEvents_none]

/-- C4 witness: consuming the single full page (one event, new token `B`,
stream exhausted) commits the cursor to `B`, and the event of the page is
delivered with the cursor still at `A`. -/
theorem events_cursor_commit_per_page_witness :
    (runEvents stEmpty "A" (some "A") [pgLast]).2.1 = "B"
    ∧ commitCursor "A" "A" (some "B") = "B" := by
  have h := events_cursor_commit_per_page stEmpty "A" "A" pgLast []
  have hcommit := h.2.2.1 "B" rfl (by decide) (by decide) (by decide)
  exact ⟨by rw [h.2.2.2 rfl, hcommit], hcommit⟩

end GDrive
